import Mathlib

/-!
Formal model of the comment-bot client (Next.js dashboard for comment
campaigns).  The TypeScript sources are shallowly embedded: React handlers
become pure functions over explicit state, the Supabase/PostgREST calls are
parametrised by their outcomes, and machine values (dates, timestamps) are
modelled as integers.  Each claim about the specification is stated and
settled as a theorem below the definitions.
-/

/-- Campaign lifecycle status, from the campaign record type
(`not-started | in-progress | completed | aborted`). -/
inductive CampaignStatus
  | notStarted
  | inProgress
  | completed
  | aborted
deriving DecidableEq, Repr

/-- Targeting mode of a campaign form (`"date" | "posts"`). -/
inductive TargetingMode
  | date
  | posts
deriving DecidableEq, Repr

/-- Row of the `comment_campaigns` table as used by the client
(`CommentCampaign` in `lib/types/campaign`; dates and timestamps are
modelled as integers). -/
structure CommentCampaign where
  id : String
  campaign_id : String
  custom_comment : String
  platform : String
  user_accounts : List String
  target_profiles : List String
  targeting_mode : TargetingMode
  target_date : Option Int
  number_of_posts : Option Int
  post_delay : Int
  status : CampaignStatus
  queue_position : Option Int
  created_at : Int
  updated_at : Int
deriving DecidableEq, Repr

/-- Outcome of one `fetch` call: the response was ok, the response was
received but not ok (`!response.ok`), or the request threw. -/
inductive FetchOutcome
  | ok
  | notOk
  | threw
deriving DecidableEq, Repr

/-- Observable effects of one run of `handleAbortCampaign`
(`campaign-progress`, the backend-wired version): whether the
`POST /api/abort` request was issued, whether the database `PATCH` setting
`status = 'aborted'` was attempted, whether the record's status was actually
set to `aborted`, and whether the success toast was shown. -/
structure AbortFlowResult where
  abortCallMade : Bool
  dbUpdateAttempted : Bool
  statusSetToAborted : Bool
  successReported : Bool
deriving DecidableEq, Repr

/-- Embedding of `handleAbortCampaign`: with no active campaign it returns
early; otherwise it awaits `POST /api/abort`, throws if the response is not
ok (so the database `PATCH` is never reached), then awaits the `PATCH` and
reports success only if that response is ok; every throw lands in the
`catch` block which only shows an error toast. -/
def handleAbortCampaign (hasActiveCampaign : Bool)
    (abortOutcome dbOutcome : FetchOutcome) : AbortFlowResult :=
  if !hasActiveCampaign then ⟨false, false, false, false⟩
  else
    match abortOutcome with
    | .notOk => ⟨true, false, false, false⟩
    | .threw => ⟨true, false, false, false⟩
    | .ok =>
      match dbOutcome with
      | .ok => ⟨true, true, true, true⟩
      | .notOk => ⟨true, true, false, false⟩
      | .threw => ⟨true, true, false, false⟩

/-- Model of JavaScript `String.prototype.trim`: drop leading and trailing
whitespace characters. -/
def strTrim (s : String) : String :=
  ⟨((s.toList.dropWhile Char.isWhitespace).reverse.dropWhile
      Char.isWhitespace).reverse⟩

/-- Helper for JavaScript `String.prototype.includes`: does `sub` occur as a
contiguous run inside `l`? -/
def containsSub (sub : List Char) : List Char → Bool
  | [] => sub.isEmpty
  | c :: rest => sub.isPrefixOf (c :: rest) || containsSub sub rest

/-- Model of JavaScript `s.includes(sub)`. -/
def strIncludes (s sub : String) : Bool :=
  containsSub sub.toList s.toList

/-- In-progress state of the campaign form (`CampaignConfig` in the
configure component); `platform = ""` means no platform selected, `none`
models an `undefined` field. -/
structure CampaignConfig where
  customComment : String
  platform : String
  userAccounts : List String
  targetProfiles : List String
  targetingMode : TargetingMode
  targetDate : Option Int
  numberOfPosts : Option Int
  postDelay : Int
deriving DecidableEq, Repr

/-- The toast message shown by the first failing validation check of
`handleAddToQueue`. -/
inductive ValidationError
  | emptyComment
  | noPlatform
  | noUserAccounts
  | noTargetProfiles
  | missingTargetDate
  | invalidNumberOfPosts
deriving DecidableEq, Repr

/-- Embedding of the validation chain at the top of `handleAddToQueue`: six
guarded early returns, in source order.  `!config.numberOfPosts ||
config.numberOfPosts < 1` is true exactly when the field is `undefined` or
holds a number below 1; reading an absent field as `0` captures both
(JavaScript `!0` is true and `0 < 1` holds, so the readings agree). -/
def validateConfig (c : CampaignConfig) : Option ValidationError :=
  if strTrim c.customComment = "" then some .emptyComment
  else if c.platform = "" then some .noPlatform
  else if c.userAccounts.length = 0 then some .noUserAccounts
  else if c.targetProfiles.length = 0 then some .noTargetProfiles
  else if c.targetingMode = .date ∧ c.targetDate = none then
    some .missingTargetDate
  else if c.targetingMode = .posts ∧ c.numberOfPosts.getD 0 < 1 then
    some .invalidNumberOfPosts
  else none

/-- Row built by `handleAddToQueue` for the `comment_campaigns` insert.
The insert payload carries no `queue_position` key, so the stored row keeps
the column default `null`; `id` and the timestamps are generated by the
database. -/
def buildCampaignData (dbId : String) (createdAt : Int) (campaignId : String)
    (c : CampaignConfig) : CommentCampaign :=
  { id := dbId
    campaign_id := campaignId
    custom_comment := c.customComment
    platform := c.platform
    user_accounts := c.userAccounts
    target_profiles := c.targetProfiles
    targeting_mode := c.targetingMode
    target_date := if c.targetingMode = .date then c.targetDate else none
    number_of_posts := if c.targetingMode = .posts then c.numberOfPosts else none
    post_delay := c.postDelay
    status := .notStarted
    queue_position := none
    created_at := createdAt
    updated_at := createdAt }

/-- Embedding of `handleAddToQueue` on the persistence-success path: run the
validation chain; on the first failure report that error and leave the table
alone, otherwise insert exactly one new row. -/
def handleAddToQueue (db : List CommentCampaign) (c : CampaignConfig)
    (dbId : String) (createdAt : Int) (campaignId : String) :
    Option ValidationError × List CommentCampaign :=
  match validateConfig c with
  | some e => (some e, db)
  | none => (none, db ++ [buildCampaignData dbId createdAt campaignId c])

/-- Embedding of `addTargetProfile`: refuse (with an error toast) when five
profiles are already present; otherwise append the trimmed input when it is
non-empty and not already in the list.  The returned flag records whether
the limit error was shown. -/
def addTargetProfile (profiles : List String) (input : String) :
    List String × Bool :=
  if 5 ≤ profiles.length then (profiles, true)
  else if strTrim input ≠ "" ∧ strTrim input ∉ profiles then
    (profiles ++ [strTrim input], false)
  else (profiles, false)

/-- Embedding of `removeTargetProfile`: keep every profile other than the
clicked one. -/
def removeTargetProfile (profiles : List String) (profile : String) :
    List String :=
  profiles.filter (fun p => p ≠ profile)

/-- One user interaction with the target-profile widget: type `s` and press
add, or click remove on `s`. -/
inductive TargetOp
  | add (s : String)
  | remove (s : String)
deriving DecidableEq, Repr

/-- Run one target-profile interaction on the current list. -/
def applyTargetOp (profiles : List String) (op : TargetOp) : List String :=
  match op with
  | .add s => (addTargetProfile profiles s).1
  | .remove s => removeTargetProfile profiles s

/-- Run a sequence of target-profile interactions starting from the empty
form. -/
def applyTargetOps (ops : List TargetOp) : List String :=
  ops.foldl applyTargetOp []

/-- Ordered list of the validation conditions exactly as the claim lists
them (comment non-empty, platform selected, at least one account, at least
one target, the active mode's value present), each paired with the flag that
the condition fails. -/
def claimChecks (c : CampaignConfig) : List (ValidationError × Bool) :=
  [ (.emptyComment, decide (strTrim c.customComment = "")),
    (.noPlatform, decide (c.platform = "")),
    (.noUserAccounts, decide (c.userAccounts = [])),
    (.noTargetProfiles, decide (c.targetProfiles = [])),
    (.missingTargetDate,
      decide (c.targetingMode = .date ∧ c.targetDate = none)),
    (.invalidNumberOfPosts,
      decide (c.targetingMode = .posts ∧ c.numberOfPosts.getD 0 < 1)) ]

/-- Fail-fast reading of the claim: report the first failing condition of
`claimChecks` and nothing else. -/
def specFirstError (c : CampaignConfig) : Option ValidationError :=
  ((claimChecks c).find? (fun p => p.2)).map (fun p => p.1)

/-- Scenario input from the specification: comment `"Nice!"`, platform
`instagram`, one user account, one target profile, targeting mode `posts`
with post count 5. -/
def scenarioConfig : CampaignConfig :=
  { customComment := "Nice!"
    platform := "instagram"
    userAccounts := ["a"]
    targetProfiles := ["b"]
    targetingMode := .posts
    targetDate := none
    numberOfPosts := some 5
    postDelay := 15 }

/-- Fully filled form whose targeting mode is `date` and whose target date
(9999) lies in the future of the clock value 0 used in the counterexample
below. -/
def futureDateConfig : CampaignConfig :=
  { customComment := "Nice!"
    platform := "instagram"
    userAccounts := ["a"]
    targetProfiles := ["b"]
    targetingMode := .date
    targetDate := some 9999
    numberOfPosts := none
    postDelay := 15 }

/-- Sample queue row used for concrete instantiations of the queue
theorems. -/
def campaignA : CommentCampaign :=
  { id := "a"
    campaign_id := "campaign-a"
    custom_comment := "hi"
    platform := "instagram"
    user_accounts := ["u"]
    target_profiles := ["t"]
    targeting_mode := .posts
    target_date := none
    number_of_posts := some 3
    post_delay := 10
    status := .notStarted
    queue_position := some 1
    created_at := 1
    updated_at := 1 }

/-- Second sample queue row, distinct id and position. -/
def campaignB : CommentCampaign :=
  { id := "b"
    campaign_id := "campaign-b"
    custom_comment := "yo"
    platform := "instagram"
    user_accounts := ["u"]
    target_profiles := ["t"]
    targeting_mode := .posts
    target_date := none
    number_of_posts := some 4
    post_delay := 12
    status := .notStarted
    queue_position := some 2
    created_at := 2
    updated_at := 2 }

/-- Comparator requested by `getCampaignsOrderedByQueue`:
`ORDER BY queue_position ASC NULLS LAST, created_at DESC` (the chained
`.order("queue_position", nullsFirst: false)` and `.order("created_at",
descending)` calls). -/
def queueOrderLe (a b : CommentCampaign) : Bool :=
  match a.queue_position, b.queue_position with
  | some x, some y =>
      decide (x < y) || (x == y && decide (b.created_at ≤ a.created_at))
  | some _, none => true
  | none, some _ => false
  | none, none => decide (b.created_at ≤ a.created_at)

/-- Database-side ordering performed for `getCampaignsOrderedByQueue`: the
rows sorted by `queueOrderLe`. -/
def orderCampaignsByQueue (db : List CommentCampaign) : List CommentCampaign :=
  db.mergeSort queueOrderLe

/-- Ordering relation exactly as the claim words it: position ascending with
null positions last, and equal (or both-null) positions ordered by creation
time descending. -/
def queueBefore (a b : CommentCampaign) : Prop :=
  match a.queue_position, b.queue_position with
  | some x, some y => x < y ∨ (x = y ∧ b.created_at ≤ a.created_at)
  | some _, none => True
  | none, some _ => False
  | none, none => b.created_at ≤ a.created_at

/-- One `PATCH` of `updateQueuePositions` applied to one row: set
`queue_position` and `updated_at` on the row whose `id` matches the
update. -/
def rowPositionUpdate (now : Int) (u : String × Int) (c : CommentCampaign) :
    CommentCampaign :=
  if c.id = u.1 then { c with queue_position := some u.2, updated_at := now }
  else c

/-- One `PATCH` of `updateQueuePositions` applied to the whole table
(`.update(...).eq("id", id)`). -/
def applyPositionUpdate (now : Int) (db : List CommentCampaign)
    (u : String × Int) : List CommentCampaign :=
  db.map (rowPositionUpdate now u)

/-- Result shape of `updateQueuePositions`, together with the table contents
it leaves behind. -/
structure PersistResult where
  db : List CommentCampaign
  success : Bool
  error : Option String
deriving Repr

/-- Embedding of `updateQueuePositions`: one update per `(id, position)`
pair, all issued via `Promise.all`; a failing update (injected by `fails`)
leaves the table untouched while the others still apply, and the first
error in update order is reported (`throw errors[0].error`), identified
here by the failing row id. -/
def updateQueuePositions (now : Int) (fails : String → Bool)
    (db : List CommentCampaign) (campaigns : List (String × Int)) :
    PersistResult :=
  let applied :=
    (campaigns.filter (fun u => !fails u.1)).foldl (applyPositionUpdate now) db
  match (campaigns.filter (fun u => fails u.1)).head? with
  | none => ⟨applied, true, none⟩
  | some e => ⟨applied, false, some e.1⟩

/-- Observable outcome of `handleReorder` on the queue page: the table
contents, the campaign list held in component state, the reported error and
whether the authoritative list was refetched. -/
structure ReorderOutcome where
  db : List CommentCampaign
  localCampaigns : List CommentCampaign
  reportedError : Option String
  refetched : Bool
deriving Repr

/-- Embedding of `handleReorder`: the optimistic local state is the
reordered list; every id is assigned `queue_position = index + 1` and
persisted through `updateQueuePositions`; on failure the error is surfaced
and `fetchCampaigns` reloads the authoritative ordering. -/
def handleReorder (now : Int) (fails : String → Bool)
    (db : List CommentCampaign) (reorderedCampaigns : List CommentCampaign) :
    ReorderOutcome :=
  let positionUpdates :=
    reorderedCampaigns.enum.map (fun p => (p.2.id, (p.1 : Int) + 1))
  let r := updateQueuePositions now fails db positionUpdates
  if r.success then ⟨r.db, reorderedCampaigns, none, false⟩
  else ⟨r.db, orderCampaignsByQueue r.db, r.error, true⟩

/-- Checkpoint event from `GET /api/progress/checkpoints` (the `Checkpoint`
interface); the numeric fields are integers here. -/
structure Checkpoint where
  type : String
  status : String
  message : String
  target : Option String
  index : Option Int
  total : Option Int
  timestamp : String
deriving DecidableEq, Repr

/-- Composite key used by `fetchCheckpoints` to deduplicate events:
the template literal joining type, status and timestamp with dashes. -/
def ckptKey (c : Checkpoint) : String :=
  c.type ++ "-" ++ c.status ++ "-" ++ c.timestamp

/-- Filter of `fetchCheckpoints` over one fetched batch: keep an event only
when its key is not yet in the seen set, inserting the key as soon as it is
examined (so duplicates inside one batch are dropped too).  Returns the
grown seen set and the kept events. -/
def dedupNew (seen : List String) :
    List Checkpoint → List String × List Checkpoint
  | [] => (seen, [])
  | c :: rest =>
    if ckptKey c ∈ seen then dedupNew seen rest
    else
      let r := dedupNew (ckptKey c :: seen) rest
      (r.1, c :: r.2)

/-- JavaScript `slice(-10)`: the most recent 10 entries of the window. -/
def lastTen (l : List Checkpoint) : List Checkpoint :=
  l.drop (l.length - 10)

/-- State of the checkpoint feed: the ref of seen checkpoint ids and the
displayed rolling window. -/
structure FeedState where
  seen : List String
  window : List Checkpoint
deriving Repr

/-- One poll of `fetchCheckpoints`: an empty response changes nothing;
otherwise unseen events are appended to the window, keeping only the most
recent 10. -/
def fetchCheckpointsStep (st : FeedState) (poll : List Checkpoint) :
    FeedState :=
  if poll.isEmpty then st
  else
    let r := dedupNew st.seen poll
    if r.2.isEmpty then { seen := r.1, window := st.window }
    else { seen := r.1, window := lastTen (st.window ++ r.2) }

/-- Events acting on the checkpoint feed: a poll of the checkpoint endpoint,
or the reset performed by `fetchProgress` when the engine reports `idle`
(which clears both the seen set and the window). -/
inductive FeedEvent
  | poll (checkpoints : List Checkpoint)
  | idleReset
deriving Repr

/-- Apply one feed event. -/
def feedStep (st : FeedState) (e : FeedEvent) : FeedState :=
  match e with
  | .poll cs => fetchCheckpointsStep st cs
  | .idleReset => { seen := [], window := [] }

/-- Run the checkpoint feed from its initial state (empty seen set, empty
window) over a sequence of events. -/
def runFeed (events : List FeedEvent) : FeedState :=
  events.foldl feedStep ⟨[], []⟩

/-- Error object surfaced by the database client (`{ code?, message? }`);
an absent field is `none`. -/
structure DbError where
  code : Option String
  message : Option String
deriving DecidableEq, Repr

/-- Embedding of `getErrorMessage` from the accounts-setup page: the known
PostgreSQL error codes first, then the network and authentication substring
checks on the message, then the raw message when it is truthy (non-empty),
and finally the generic fallback.  `error?.message?.includes(..)` is false
when either optional is absent. -/
def getErrorMessage (error : Option DbError) : String :=
  let code := error.bind DbError.code
  let msg := error.bind DbError.message
  if code = some "23505" then
    "An account with this username already exists for this platform"
  else if code = some "23502" then
    "Required fields are missing. Please fill in all required information."
  else if code = some "23514" then
    "Invalid platform selected"
  else if (msg.map (fun m => strIncludes m "fetch")).getD false ∨
      (msg.map (fun m => strIncludes m "network")).getD false then
    "Connection error. Please check your internet connection and try again."
  else if (msg.map (fun m => strIncludes m "JWT")).getD false ∨
      (msg.map (fun m => strIncludes m "auth")).getD false then
    "Authentication error. Please refresh the page and try again."
  else
    match msg with
    | some m => if m ≠ "" then m else
        "An unexpected error occurred. Please try again."
    | none => "An unexpected error occurred. Please try again."

/-- Outcome of one awaited database-client call: the call resolved with a
value, it resolved carrying an in-band error object (`if (error) throw
error`), or the await itself threw. -/
inductive DbCallOutcome (α : Type)
  | ok (val : α)
  | errResult (e : DbError)
  | threw (e : DbError)
deriving DecidableEq, Repr

/-- Result object of the data-returning client functions
(`{ data, error }`). -/
structure DataResult (α : Type) where
  data : Option α
  error : Option DbError
deriving DecidableEq, Repr

/-- Result object of the deleting client functions (`{ success, error }`). -/
structure SuccessResult where
  success : Bool
  error : Option DbError
deriving DecidableEq, Repr

/-- Shared `try/catch` shape of the data-returning client functions: return
the data with a null error, or catch and return null data with the error. -/
def runDataQuery {α : Type} (o : DbCallOutcome α) : DataResult α :=
  match o with
  | .ok v => ⟨some v, none⟩
  | .errResult e => ⟨none, some e⟩
  | .threw e => ⟨none, some e⟩

/-- Shared `try/catch` shape of the deleting client functions. -/
def runDeleteCall (o : DbCallOutcome Unit) : SuccessResult :=
  match o with
  | .ok _ => ⟨true, none⟩
  | .errResult e => ⟨false, some e⟩
  | .threw e => ⟨false, some e⟩

/-- Count taken from one loop iteration of the counting client functions:
the count when the call succeeded with a non-null count, otherwise the
initial 0 (`if (!error && count !== null)`). -/
def countOf (o : DbCallOutcome Nat) : Nat :=
  match o with
  | .ok n => n
  | _ => 0

/-- First call of a counting loop whose await threw (sending the whole
function into its `catch`), if any. -/
def firstThrown (os : List (DbCallOutcome Nat)) : Option DbError :=
  os.findSome? (fun o =>
    match o with
    | .threw e => some e
    | _ => none)

/-- Row of the `social_accounts` table (`SocialAccount` in
`lib/types/social-account`); timestamps are integers. -/
structure SocialAccount where
  id : String
  platform : String
  username : String
  password : String
  is_active : Bool
  last_used_at : Option Int
  created_at : Int
  updated_at : Int
deriving DecidableEq, Repr

/-- Input of `createSocialAccount`. -/
structure CreateSocialAccountInput where
  platform : String
  username : String
  password : String
deriving DecidableEq, Repr

/-- Input of `updateSocialAccount`; absent fields are not updated. -/
structure UpdateSocialAccountInput where
  username : Option String
  password : Option String
  is_active : Option Bool
deriving DecidableEq, Repr

/-- Embedding of `getAllCampaigns` (`supabase-client`). -/
def getAllCampaigns (o : DbCallOutcome (List CommentCampaign)) :
    DataResult (List CommentCampaign) :=
  runDataQuery o

/-- Embedding of `getCampaignById`; `.single()` reports zero matches as an
in-band error, so a resolved call always carries a row. -/
def getCampaignById (campaignId : String)
    (o : DbCallOutcome CommentCampaign) : DataResult CommentCampaign :=
  runDataQuery o

/-- Embedding of `getCampaignsByStatus`. -/
def getCampaignsByStatus (status : CampaignStatus)
    (o : DbCallOutcome (List CommentCampaign)) :
    DataResult (List CommentCampaign) :=
  runDataQuery o

/-- Embedding of `updateCampaignStatus`. -/
def updateCampaignStatus (campaignId : String) (status : CampaignStatus)
    (o : DbCallOutcome (List CommentCampaign)) :
    DataResult (List CommentCampaign) :=
  runDataQuery o

/-- Embedding of `deleteCampaign`. -/
def deleteCampaign (campaignId : String) (o : DbCallOutcome Unit) :
    SuccessResult :=
  runDeleteCall o

/-- Embedding of `getCampaignsCountByStatus`: one counted query per status
in the fixed `statuses` array (outcomes aligned with it); an in-band error
leaves that count at 0, a thrown await lands in the `catch`. -/
def getCampaignsCountByStatus (os : List (DbCallOutcome Nat)) :
    DataResult (List Nat) :=
  match firstThrown os with
  | some e => ⟨none, some e⟩
  | none => ⟨some (os.map countOf), none⟩

/-- Embedding of `getRecentCampaigns`. -/
def getRecentCampaigns (days : Int)
    (o : DbCallOutcome (List CommentCampaign)) :
    DataResult (List CommentCampaign) :=
  runDataQuery o

/-- Embedding of `getCampaignsByPlatform`. -/
def getCampaignsByPlatform (platform : String)
    (o : DbCallOutcome (List CommentCampaign)) :
    DataResult (List CommentCampaign) :=
  runDataQuery o

/-- Embedding of `searchCampaignsByComment`. -/
def searchCampaignsByComment (searchText : String)
    (o : DbCallOutcome (List CommentCampaign)) :
    DataResult (List CommentCampaign) :=
  runDataQuery o

/-- Embedding of `getCampaignsOrderedByQueue`: on success the database
returns the rows ordered by the requested keys. -/
def getCampaignsOrderedByQueue (db : List CommentCampaign)
    (o : DbCallOutcome Unit) : DataResult (List CommentCampaign) :=
  match o with
  | .ok _ => ⟨some (orderCampaignsByQueue db), none⟩
  | .errResult e => ⟨none, some e⟩
  | .threw e => ⟨none, some e⟩

/-- Embedding of `getActiveCampaign`: `.maybeSingle()` resolves with a null
row (and a null error) when no campaign is `in-progress`. -/
def getActiveCampaign (o : DbCallOutcome (Option CommentCampaign)) :
    DataResult CommentCampaign :=
  match o with
  | .ok v => ⟨v, none⟩
  | .errResult e => ⟨none, some e⟩
  | .threw e => ⟨none, some e⟩

/-- Embedding of `getAllSocialAccounts` (`social-accounts-client`). -/
def getAllSocialAccounts (o : DbCallOutcome (List SocialAccount)) :
    DataResult (List SocialAccount) :=
  runDataQuery o

/-- Embedding of `getSocialAccountsByPlatform`. -/
def getSocialAccountsByPlatform (platform : String)
    (o : DbCallOutcome (List SocialAccount)) :
    DataResult (List SocialAccount) :=
  runDataQuery o

/-- Embedding of `getSocialAccountById` (a `.single()` query). -/
def getSocialAccountById (id : String) (o : DbCallOutcome SocialAccount) :
    DataResult SocialAccount :=
  runDataQuery o

/-- Embedding of `createSocialAccount`. -/
def createSocialAccount (input : CreateSocialAccountInput)
    (o : DbCallOutcome SocialAccount) : DataResult SocialAccount :=
  runDataQuery o

/-- Embedding of `updateSocialAccount`. -/
def updateSocialAccount (id : String) (input : UpdateSocialAccountInput)
    (o : DbCallOutcome SocialAccount) : DataResult SocialAccount :=
  runDataQuery o

/-- Embedding of `deleteSocialAccount`. -/
def deleteSocialAccount (id : String) (o : DbCallOutcome Unit) :
    SuccessResult :=
  runDeleteCall o

/-- Embedding of `getAccountCountsByPlatform`: one counted query per
platform in the fixed `platforms` array, same loop shape as
`getCampaignsCountByStatus`. -/
def getAccountCountsByPlatform (os : List (DbCallOutcome Nat)) :
    DataResult (List Nat) :=
  match firstThrown os with
  | some e => ⟨none, some e⟩
  | none => ⟨some (os.map countOf), none⟩

/-- Embedding of `getActiveAccountsForPlatform`; each returned entry is the
selected `(id, username)` pair. -/
def getActiveAccountsForPlatform (platform : String)
    (o : DbCallOutcome (List (String × String))) :
    DataResult (List (String × String)) :=
  runDataQuery o

/-!
Theorems.  Each claim gets one main theorem (with witness or counterexample
where required); shared helper lemmas come first where needed.
-/

/-- C1: in the abort flow the engine-notify call and the local status update
are sequential: when `POST /api/abort` fails (not ok, or thrown) the
database update to `aborted` is never attempted and the record stays
`in-progress`; the success toast is shown exactly when both calls
succeed. -/
theorem abort_flow_sequential (a d : FetchOutcome) :
    (a ≠ .ok →
      (handleAbortCampaign true a d).dbUpdateAttempted = false ∧
      (handleAbortCampaign true a d).statusSetToAborted = false) ∧
    ((handleAbortCampaign true a d).successReported = true ↔
      a = .ok ∧ d = .ok) := by
  cases a <;> cases d <;> simp [handleAbortCampaign]

/-- Witness for `abort_flow_sequential` at the concrete input where the
engine-notify request throws and the database would have answered ok. -/
theorem abort_flow_sequential_witness :
    (handleAbortCampaign true .threw .ok).dbUpdateAttempted = false ∧
    (handleAbortCampaign true .threw .ok).statusSetToAborted = false :=
  (abort_flow_sequential .threw .ok).1 (by decide)

/-- C3 counterexample: submitting the specification's scenario form over an
empty queue inserts one `not-started` record, but its queue position is the
column default `null`, not queue length + 1 (= 1) as the claim states. -/
theorem scenario_insert_position_cex :
    (handleAddToQueue [] scenarioConfig "row-1" 0 "campaign-1").2 =
      [buildCampaignData "row-1" 0 "campaign-1" scenarioConfig] ∧
    (buildCampaignData "row-1" 0 "campaign-1" scenarioConfig).status =
      .notStarted ∧
    (buildCampaignData "row-1" 0 "campaign-1" scenarioConfig).queue_position ≠
      some ((([] : List CommentCampaign).length : Int) + 1) := by
  decide

/-- C3 (amended): submitting a valid campaign form inserts exactly one new
record whose status is `not-started` and whose queue position is unset
(`null`); such a record sorts after every row that has a queue position, so
it lands at the end of the positioned queue. -/
theorem add_to_queue_appends_not_started (db : List CommentCampaign)
    (c : CampaignConfig) (dbId : String) (ts : Int) (cid : String)
    (h : validateConfig c = none) :
    (handleAddToQueue db c dbId ts cid).2 =
      db ++ [buildCampaignData dbId ts cid c] ∧
    (buildCampaignData dbId ts cid c).status = .notStarted ∧
    (buildCampaignData dbId ts cid c).queue_position = none ∧
    (∀ b : CommentCampaign, b.queue_position ≠ none →
      queueOrderLe b (buildCampaignData dbId ts cid c) = true ∧
      queueOrderLe (buildCampaignData dbId ts cid c) b = false) := by
  refine ⟨by simp [handleAddToQueue, h], rfl, rfl, ?_⟩
  intro b hb
  rcases hbq : b.queue_position with _ | x
  · exact absurd hbq hb
  · simp [queueOrderLe, buildCampaignData, hbq]

/-- Witness for `add_to_queue_appends_not_started` at the specification's
scenario input over the empty queue. -/
theorem add_to_queue_appends_not_started_witness :
    (handleAddToQueue [] scenarioConfig "row-1" 0 "campaign-1").2 =
      [] ++ [buildCampaignData "row-1" 0 "campaign-1" scenarioConfig] ∧
    (buildCampaignData "row-1" 0 "campaign-1" scenarioConfig).status =
      .notStarted := by
  have h := add_to_queue_appends_not_started [] scenarioConfig "row-1" 0
    "campaign-1" (by decide)
  exact ⟨h.1, h.2.1⟩

/-- C5: a record written by the form carries exactly one targeting value:
in `date` mode the target date is present and the post count is null, in
`posts` mode the post count is present and the target date is null
(assuming the row passed the form validation that guards the insert). -/
theorem targeting_value_exclusive (dbId : String) (ts : Int) (cid : String)
    (c : CampaignConfig) (h : validateConfig c = none) :
    ((buildCampaignData dbId ts cid c).targeting_mode = .date →
      (buildCampaignData dbId ts cid c).target_date.isSome = true ∧
      (buildCampaignData dbId ts cid c).number_of_posts = none) ∧
    ((buildCampaignData dbId ts cid c).targeting_mode = .posts →
      (buildCampaignData dbId ts cid c).number_of_posts.isSome = true ∧
      (buildCampaignData dbId ts cid c).target_date = none) := by
  unfold validateConfig at h
  split_ifs at h with h1 h2 h3 h4 h5 h6
  constructor
  · intro hmode
    have hmode' : c.targetingMode = .date := hmode
    have hdate : c.targetDate ≠ none := fun hn => h5 ⟨hmode', hn⟩
    rcases hd : c.targetDate with _ | d
    · exact absurd hd hdate
    · simp [buildCampaignData, hmode', hd]
  · intro hmode
    have hmode' : c.targetingMode = .posts := hmode
    have hposts : ¬ c.numberOfPosts.getD 0 < 1 := fun hn => h6 ⟨hmode', hn⟩
    rcases hp : c.numberOfPosts with _ | n
    · rw [hp] at hposts
      simp at hposts
    · simp [buildCampaignData, hmode', hp]

/-- Witness for `targeting_value_exclusive` at the specification's scenario
input (posts mode, count 5). -/
theorem targeting_value_exclusive_witness :
    (buildCampaignData "row-1" 0 "campaign-1"
      scenarioConfig).number_of_posts.isSome = true ∧
    (buildCampaignData "row-1" 0 "campaign-1" scenarioConfig).target_date =
      none :=
  (targeting_value_exclusive "row-1" 0 "campaign-1" scenarioConfig
    (by decide)).2 (by decide)

/-- Applying one target-profile interaction never pushes the list beyond
five entries. -/
theorem applyTargetOp_length_le (ps : List String) (op : TargetOp)
    (h : ps.length ≤ 5) : (applyTargetOp ps op).length ≤ 5 := by
  cases op with
  | add s =>
    by_cases h1 : 5 ≤ ps.length
    · simpa [applyTargetOp, addTargetProfile, h1] using h
    · by_cases h2 : strTrim s ≠ "" ∧ strTrim s ∉ ps
      · simp [applyTargetOp, addTargetProfile, h1, h2]
        omega
      · simpa [applyTargetOp, addTargetProfile, h1, h2] using h
  | remove s =>
    exact le_trans (List.length_filter_le _ _) h

/-- Folding target-profile interactions preserves the five-entry bound. -/
theorem foldl_targetOps_length_le (ops : List TargetOp) :
    ∀ ps : List String, ps.length ≤ 5 →
      (ops.foldl applyTargetOp ps).length ≤ 5 := by
  induction ops with
  | nil => intro ps h; exact h
  | cons op rest ih =>
    intro ps h
    exact ih _ (applyTargetOp_length_le ps op h)

/-- C7 counterexample: adding one profile and removing it again leaves the
form with zero target profiles, so the length is not between 1 and 5 after
that add/remove sequence. -/
theorem target_profiles_empty_cex :
    applyTargetOps [TargetOp.add "a", TargetOp.remove "a"] = [] ∧
    ¬ (1 ≤ (applyTargetOps [TargetOp.add "a", TargetOp.remove "a"]).length) := by
  decide

/-- C7 (amended): after any sequence of add and remove interactions starting
from the empty form the target-profile list has between 0 and 5 entries, and
an attempted add while 5 profiles are present is rejected with the limit
error and leaves the list unchanged. -/
theorem target_profiles_bounded :
    (∀ ops : List TargetOp, (applyTargetOps ops).length ≤ 5) ∧
    (∀ (ps : List String) (s : String), ps.length = 5 →
      addTargetProfile ps s = (ps, true)) := by
  constructor
  · intro ops
    exact foldl_targetOps_length_le ops [] (by simp)
  · intro ps s h
    unfold addTargetProfile
    rw [if_pos (le_of_eq h.symm)]

/-- Witness for `target_profiles_bounded`: the bound after one add, and the
rejection of a sixth profile on a concrete full list. -/
theorem target_profiles_bounded_witness :
    (applyTargetOps [TargetOp.add "a"]).length ≤ 5 ∧
    addTargetProfile ["a", "b", "c", "d", "e"] "f" =
      (["a", "b", "c", "d", "e"], true) :=
  ⟨target_profiles_bounded.1 _,
    target_profiles_bounded.2 ["a", "b", "c", "d", "e"] "f" (by decide)⟩

/-- C4 counterexample: a fully filled form in `date` mode whose target date
(9999) lies in the future of the submission clock (0) passes the validation
chain — no error is reported and the insert is attempted — so the submit
validation does not check that the date is not in the future (only the
date-picker UI disables future days). -/
theorem future_date_passes_validation_cex :
    futureDateConfig.targetingMode = .date ∧
    futureDateConfig.targetDate = some 9999 ∧ (0 : Int) < 9999 ∧
    validateConfig futureDateConfig = none ∧
    (handleAddToQueue [] futureDateConfig "row-1" 0 "campaign-1").1 = none ∧
    (handleAddToQueue [] futureDateConfig "row-1" 0 "campaign-1").2 ≠ [] := by
  decide

/-- C4 (amended): the validation chain checks the conditions in the claimed
order — comment non-empty, platform selected, at least one user account, at
least one target profile, then the active targeting mode's value present
(date set for `date` mode, post count at least 1 for `posts` mode; the
date's relation to the clock is not checked) — and reports exactly the
first failing condition, stopping there (fail-fast). -/
theorem validation_fail_fast_order (c : CampaignConfig) :
    validateConfig c = specFirstError c := by
  unfold validateConfig specFirstError claimChecks
  simp only [List.length_eq_zero]
  by_cases h1 : strTrim c.customComment = ""
  · simp [List.find?, h1]
  by_cases h2 : c.platform = ""
  · simp [List.find?, h1, h2]
  by_cases h3 : c.userAccounts = []
  · simp [List.find?, h1, h2, h3]
  by_cases h4 : c.targetProfiles = []
  · simp [List.find?, h1, h2, h3, h4]
  by_cases h5 : c.targetingMode = .date ∧ c.targetDate = none
  · simp [List.find?, h1, h2, h3, h4, h5]
  by_cases h6 : c.targetingMode = .posts ∧ c.numberOfPosts.getD 0 < 1
  · simp [List.find?, h1, h2, h3, h4, h5, h6]
  · simp [List.find?, h1, h2, h3, h4, h5, h6]

/-- C9 counterexample: an error that matches no known code and no network or
auth substring but carries its own message (here "Something odd happened")
is surfaced verbatim, not replaced by the generic fallback message the claim
describes. -/
theorem unknown_error_message_cex :
    getErrorMessage (some ⟨none, some "Something odd happened"⟩) =
      "Something odd happened" ∧
    "Something odd happened" ≠
      "An unexpected error occurred. Please try again." := by
  decide

/-- C9 (amended): the translator maps the known PostgreSQL codes 23505,
23502 and 23514 to the duplicate-account, missing-field and
invalid-platform messages, maps messages mentioning fetch/network or
JWT/auth to the connection and authentication messages, surfaces any other
error's own non-empty message verbatim, and falls back to the generic
message only when no message is present. -/
theorem error_message_translation (e : Option DbError) :
    (e.bind DbError.code = some "23505" →
      getErrorMessage e =
        "An account with this username already exists for this platform") ∧
    (e.bind DbError.code = some "23502" →
      getErrorMessage e =
        "Required fields are missing. Please fill in all required information.") ∧
    (e.bind DbError.code = some "23514" →
      getErrorMessage e = "Invalid platform selected") ∧
    (e.bind DbError.code ∉
        [some "23505", some "23502", some "23514"] →
      (((e.bind DbError.message).map
          (fun m => strIncludes m "fetch")).getD false ∨
        ((e.bind DbError.message).map
          (fun m => strIncludes m "network")).getD false) →
      getErrorMessage e =
        "Connection error. Please check your internet connection and try again.") ∧
    (e.bind DbError.code ∉
        [some "23505", some "23502", some "23514"] →
      ¬ (((e.bind DbError.message).map
          (fun m => strIncludes m "fetch")).getD false ∨
        ((e.bind DbError.message).map
          (fun m => strIncludes m "network")).getD false) →
      (((e.bind DbError.message).map
          (fun m => strIncludes m "JWT")).getD false ∨
        ((e.bind DbError.message).map
          (fun m => strIncludes m "auth")).getD false) →
      getErrorMessage e =
        "Authentication error. Please refresh the page and try again.") ∧
    (∀ m : String, e.bind DbError.code ∉
        [some "23505", some "23502", some "23514"] →
      ¬ (((e.bind DbError.message).map
          (fun m => strIncludes m "fetch")).getD false ∨
        ((e.bind DbError.message).map
          (fun m => strIncludes m "network")).getD false) →
      ¬ (((e.bind DbError.message).map
          (fun m => strIncludes m "JWT")).getD false ∨
        ((e.bind DbError.message).map
          (fun m => strIncludes m "auth")).getD false) →
      e.bind DbError.message = some m → m ≠ "" →
      getErrorMessage e = m) ∧
    (e.bind DbError.code ∉
        [some "23505", some "23502", some "23514"] →
      (e.bind DbError.message = none ∨ e.bind DbError.message = some "") →
      getErrorMessage e =
        "An unexpected error occurred. Please try again.") := by
  have hf : strIncludes "" "fetch" = false := by decide
  have hn : strIncludes "" "network" = false := by decide
  have hj : strIncludes "" "JWT" = false := by decide
  have ha : strIncludes "" "auth" = false := by decide
  refine ⟨?_, ?_, ?_, ?_, ?_, ?_, ?_⟩
  · intro h
    simp [getErrorMessage, h]
  · intro h
    simp [getErrorMessage, h]
  · intro h
    simp [getErrorMessage, h]
  · intro hcode hnet
    have n1 : e.bind DbError.code ≠ some "23505" := fun h => hcode (by simp [h])
    have n2 : e.bind DbError.code ≠ some "23502" := fun h => hcode (by simp [h])
    have n3 : e.bind DbError.code ≠ some "23514" := fun h => hcode (by simp [h])
    simp only [getErrorMessage]
    rw [if_neg n1, if_neg n2, if_neg n3, if_pos hnet]
  · intro hcode hnet hauth
    have n1 : e.bind DbError.code ≠ some "23505" := fun h => hcode (by simp [h])
    have n2 : e.bind DbError.code ≠ some "23502" := fun h => hcode (by simp [h])
    have n3 : e.bind DbError.code ≠ some "23514" := fun h => hcode (by simp [h])
    simp only [getErrorMessage]
    rw [if_neg n1, if_neg n2, if_neg n3, if_neg hnet, if_pos hauth]
  · intro m hcode hnet hauth hm hne
    have n1 : e.bind DbError.code ≠ some "23505" := fun h => hcode (by simp [h])
    have n2 : e.bind DbError.code ≠ some "23502" := fun h => hcode (by simp [h])
    have n3 : e.bind DbError.code ≠ some "23514" := fun h => hcode (by simp [h])
    simp only [getErrorMessage]
    rw [if_neg n1, if_neg n2, if_neg n3, if_neg hnet, if_neg hauth, hm]
    simp [hne]
  · intro hcode hm
    have n1 : e.bind DbError.code ≠ some "23505" := fun h => hcode (by simp [h])
    have n2 : e.bind DbError.code ≠ some "23502" := fun h => hcode (by simp [h])
    have n3 : e.bind DbError.code ≠ some "23514" := fun h => hcode (by simp [h])
    rcases hm with hm | hm <;>
      simp [getErrorMessage, n1, n2, n3, hm, hf, hn, hj, ha]

/-- Witness for `error_message_translation`: the duplicate-account code on a
concrete error object. -/
theorem error_message_translation_witness :
    getErrorMessage (some ⟨some "23505", none⟩) =
      "An account with this username already exists for this platform" :=
  (error_message_translation (some ⟨some "23505", none⟩)).1 (by decide)

/-- C10 counterexample: `getActiveCampaign` resolves a `.maybeSingle()` with
no matching row as null data together with a null error, so "data null if
and only if error non-null" fails for it. -/
theorem active_campaign_null_null_cex :
    (getActiveCampaign (DbCallOutcome.ok none)).data = none ∧
    (getActiveCampaign (DbCallOutcome.ok none)).error = none := by
  decide

/-- C10 (amended): every exported operation of the campaign and
social-account client modules is total and returns a result object; a
non-null error always comes with null data (or `success = false`), and the
converse biconditional holds for every operation except `getActiveCampaign`,
whose data is also null when the `.maybeSingle()` lookup succeeds with no
`in-progress` row. -/
theorem db_client_result_shape :
    (∀ o, ((getActiveCampaign o).error ≠ none →
        (getActiveCampaign o).data = none) ∧
      ((getActiveCampaign o).data = none ∧ (getActiveCampaign o).error = none →
        o = .ok none)) ∧
    (∀ o, (getAllCampaigns o).data = none ↔ (getAllCampaigns o).error ≠ none) ∧
    (∀ cid o, (getCampaignById cid o).data = none ↔
      (getCampaignById cid o).error ≠ none) ∧
    (∀ st o, (getCampaignsByStatus st o).data = none ↔
      (getCampaignsByStatus st o).error ≠ none) ∧
    (∀ cid st o, (updateCampaignStatus cid st o).data = none ↔
      (updateCampaignStatus cid st o).error ≠ none) ∧
    (∀ cid o, (deleteCampaign cid o).success = false ↔
      (deleteCampaign cid o).error ≠ none) ∧
    (∀ os, (getCampaignsCountByStatus os).data = none ↔
      (getCampaignsCountByStatus os).error ≠ none) ∧
    (∀ d o, (getRecentCampaigns d o).data = none ↔
      (getRecentCampaigns d o).error ≠ none) ∧
    (∀ p o, (getCampaignsByPlatform p o).data = none ↔
      (getCampaignsByPlatform p o).error ≠ none) ∧
    (∀ s o, (searchCampaignsByComment s o).data = none ↔
      (searchCampaignsByComment s o).error ≠ none) ∧
    (∀ db o, (getCampaignsOrderedByQueue db o).data = none ↔
      (getCampaignsOrderedByQueue db o).error ≠ none) ∧
    (∀ now fails db us, (updateQueuePositions now fails db us).success = false ↔
      (updateQueuePositions now fails db us).error ≠ none) ∧
    (∀ o, (getAllSocialAccounts o).data = none ↔
      (getAllSocialAccounts o).error ≠ none) ∧
    (∀ p o, (getSocialAccountsByPlatform p o).data = none ↔
      (getSocialAccountsByPlatform p o).error ≠ none) ∧
    (∀ i o, (getSocialAccountById i o).data = none ↔
      (getSocialAccountById i o).error ≠ none) ∧
    (∀ inp o, (createSocialAccount inp o).data = none ↔
      (createSocialAccount inp o).error ≠ none) ∧
    (∀ i inp o, (updateSocialAccount i inp o).data = none ↔
      (updateSocialAccount i inp o).error ≠ none) ∧
    (∀ i o, (deleteSocialAccount i o).success = false ↔
      (deleteSocialAccount i o).error ≠ none) ∧
    (∀ os, (getAccountCountsByPlatform os).data = none ↔
      (getAccountCountsByPlatform os).error ≠ none) ∧
    (∀ p o, (getActiveAccountsForPlatform p o).data = none ↔
      (getActiveAccountsForPlatform p o).error ≠ none) := by
  refine ⟨?_, ?_, ?_, ?_, ?_, ?_, ?_, ?_, ?_, ?_, ?_, ?_, ?_, ?_, ?_, ?_,
    ?_, ?_, ?_, ?_⟩
  · intro o
    cases o with
    | ok v => cases v <;> simp [getActiveCampaign]
    | errResult e => simp [getActiveCampaign]
    | threw e => simp [getActiveCampaign]
  · intro o
    cases o <;> simp [getAllCampaigns, runDataQuery]
  · intro cid o
    cases o <;> simp [getCampaignById, runDataQuery]
  · intro st o
    cases o <;> simp [getCampaignsByStatus, runDataQuery]
  · intro cid st o
    cases o <;> simp [updateCampaignStatus, runDataQuery]
  · intro cid o
    cases o <;> simp [deleteCampaign, runDeleteCall]
  · intro os
    rcases h : firstThrown os with _ | e <;>
      simp [getCampaignsCountByStatus, h]
  · intro d o
    cases o <;> simp [getRecentCampaigns, runDataQuery]
  · intro p o
    cases o <;> simp [getCampaignsByPlatform, runDataQuery]
  · intro s o
    cases o <;> simp [searchCampaignsByComment, runDataQuery]
  · intro db o
    cases o <;> simp [getCampaignsOrderedByQueue]
  · intro now fails db us
    rcases h : (us.filter (fun u => fails u.1)).head? with _ | e <;>
      simp [updateQueuePositions, h]
  · intro o
    cases o <;> simp [getAllSocialAccounts, runDataQuery]
  · intro p o
    cases o <;> simp [getSocialAccountsByPlatform, runDataQuery]
  · intro i o
    cases o <;> simp [getSocialAccountById, runDataQuery]
  · intro inp o
    cases o <;> simp [createSocialAccount, runDataQuery]
  · intro i inp o
    cases o <;> simp [updateSocialAccount, runDataQuery]
  · intro i o
    cases o <;> simp [deleteSocialAccount, runDeleteCall]
  · intro os
    rcases h : firstThrown os with _ | e <;>
      simp [getAccountCountsByPlatform, h]
  · intro p o
    cases o <;> simp [getActiveAccountsForPlatform, runDataQuery]

/-- Witness for `db_client_result_shape`: a thrown `getActiveCampaign`
lookup reports the error with null data. -/
theorem db_client_result_shape_witness :
    (getActiveCampaign (DbCallOutcome.threw ⟨none, none⟩)).data = none :=
  (db_client_result_shape.1 (DbCallOutcome.threw ⟨none, none⟩)).1 (by decide)

/-- Properties of the dedup filter over one batch: the kept events have
pairwise distinct keys, none of their keys was already seen, the seen set
only grows, and every kept key ends up in the grown seen set. -/
theorem dedupNew_spec (cs : List Checkpoint) :
    ∀ seen : List String,
      ((dedupNew seen cs).2.map ckptKey).Nodup ∧
      (∀ k ∈ (dedupNew seen cs).2.map ckptKey, k ∉ seen) ∧
      (∀ k ∈ seen, k ∈ (dedupNew seen cs).1) ∧
      (∀ k ∈ (dedupNew seen cs).2.map ckptKey, k ∈ (dedupNew seen cs).1) := by
  induction cs with
  | nil => intro seen; simp [dedupNew]
  | cons c rest ih =>
    intro seen
    by_cases h : ckptKey c ∈ seen
    · simpa [dedupNew, h] using ih seen
    · have ih' := ih (ckptKey c :: seen)
      obtain ⟨ihnodup, ihfresh, ihgrow, ihkeys⟩ := ih'
      simp only [dedupNew, h, if_neg, ite_false, List.map_cons]
      refine ⟨?_, ?_, ?_, ?_⟩
      · exact List.nodup_cons.mpr
          ⟨fun hk => (ihfresh _ hk) (List.mem_cons_self _ _), ihnodup⟩
      · intro k hk
        rcases List.mem_cons.mp hk with hk | hk
        · exact hk ▸ h
        · exact fun hs => (ihfresh _ hk) (List.mem_cons_of_mem _ hs)
      · intro k hk
        exact ihgrow _ (List.mem_cons_of_mem _ hk)
      · intro k hk
        rcases List.mem_cons.mp hk with hk | hk
        · exact hk ▸ ihgrow _ (List.mem_cons_self _ _)
        · exact ihkeys _ hk
  
/-- One feed event preserves the window invariant: the displayed keys stay
pairwise distinct and every displayed key is in the seen set. -/
theorem feedStep_inv (st : FeedState) (e : FeedEvent)
    (h1 : (st.window.map ckptKey).Nodup)
    (h2 : ∀ k ∈ st.window.map ckptKey, k ∈ st.seen) :
    ((feedStep st e).window.map ckptKey).Nodup ∧
    ∀ k ∈ (feedStep st e).window.map ckptKey, k ∈ (feedStep st e).seen := by
  cases e with
  | idleReset => simp [feedStep]
  | poll cs =>
    obtain ⟨dnodup, dfresh, dgrow, dkeys⟩ := dedupNew_spec cs st.seen
    simp only [feedStep, fetchCheckpointsStep]
    by_cases hp : cs.isEmpty
    · simp only [hp, ite_true]
      exact ⟨h1, h2⟩
    · simp only [hp, ite_false]
      by_cases hnew : (dedupNew st.seen cs).2.isEmpty
      · simp only [hnew, ite_true]
        exact ⟨h1, fun k hk => dgrow _ (h2 _ hk)⟩
      · simp only [hnew, ite_false]
        have happ : ((st.window ++ (dedupNew st.seen cs).2).map ckptKey).Nodup := by
          rw [List.map_append]
          refine List.Nodup.append h1 dnodup ?_
          intro k hk hk'
          exact (dfresh _ hk') (h2 _ hk)
        have hsub : (lastTen (st.window ++ (dedupNew st.seen cs).2)).Sublist
            (st.window ++ (dedupNew st.seen cs).2) := List.drop_sublist _ _
        refine ⟨(hsub.map ckptKey).nodup happ, ?_⟩
        intro k hk
        have hk' : k ∈ (st.window ++ (dedupNew st.seen cs).2).map ckptKey :=
          (hsub.map ckptKey).mem hk
        rw [List.map_append, List.mem_append] at hk'
        rcases hk' with hk' | hk'
        · exact dgrow _ (h2 _ hk')
        · exact dkeys _ hk'

/-- Folding feed events preserves the window invariant. -/
theorem runFeed_inv (events : List FeedEvent) :
    ∀ st : FeedState, (st.window.map ckptKey).Nodup →
      (∀ k ∈ st.window.map ckptKey, k ∈ st.seen) →
      (((events.foldl feedStep st).window.map ckptKey).Nodup ∧
        ∀ k ∈ (events.foldl feedStep st).window.map ckptKey,
          k ∈ (events.foldl feedStep st).seen) := by
  induction events with
  | nil => intro st h1 h2; exact ⟨h1, h2⟩
  | cons e rest ih =>
    intro st h1 h2
    obtain ⟨h1', h2'⟩ := feedStep_inv st e h1 h2
    exact ih (feedStep st e) h1' h2'

/-- C6: across any sequence of checkpoint polls (and idle resets), the
displayed rolling window never holds two entries with the same composite
(type, status, timestamp) key: every re-observed checkpoint is filtered out
by the seen-id set before it could be appended again. -/
theorem checkpoint_window_no_duplicates (events : List FeedEvent) :
    ((runFeed events).window.map ckptKey).Nodup ∧
    (runFeed events).window.Pairwise (fun a b =>
      ¬ (a.type = b.type ∧ a.status = b.status ∧ a.timestamp = b.timestamp)) := by
  have hinv := runFeed_inv events ⟨[], []⟩ (by simp) (by simp)
  refine ⟨hinv.1, ?_⟩
  have hp : ((runFeed events).window.map ckptKey).Pairwise (· ≠ ·) :=
    List.Pairwise.imp (fun h => h) hinv.1
  rw [List.pairwise_map] at hp
  refine hp.imp ?_
  intro a b hne ⟨ht, hs, hts⟩
  exact hne (by simp [ckptKey, ht, hs, hts])

/-- The queue comparator is transitive. -/
theorem queueOrderLe_trans (a b c : CommentCampaign)
    (hab : queueOrderLe a b = true) (hbc : queueOrderLe b c = true) :
    queueOrderLe a c = true := by
  unfold queueOrderLe at hab hbc ⊢
  rcases ha : a.queue_position with _ | x <;>
    rcases hb : b.queue_position with _ | y <;>
    rcases hc : c.queue_position with _ | z <;>
    rw [ha, hb] at hab <;> rw [hb, hc] at hbc <;> simp_all <;> omega

/-- The queue comparator is total. -/
theorem queueOrderLe_total (a b : CommentCampaign) :
    (queueOrderLe a b || queueOrderLe b a) = true := by
  unfold queueOrderLe
  rcases ha : a.queue_position with _ | x <;>
    rcases hb : b.queue_position with _ | y <;> simp <;> omega

/-- The queue comparator implies the ordering relation of the claim. -/
theorem queueOrderLe_before (a b : CommentCampaign)
    (h : queueOrderLe a b = true) : queueBefore a b := by
  unfold queueOrderLe at h
  unfold queueBefore
  rcases ha : a.queue_position with _ | x <;>
    rcases hb : b.queue_position with _ | y <;>
    rw [ha, hb] at h <;> simp_all

/-- C8: the queue listing returns the rows sorted: the result is a
permutation of the table in which every row precedes the next according to
the claimed order (position ascending, nulls last, creation time descending
as the tie-break). -/
theorem queue_listing_sorted (db : List CommentCampaign) :
    (getCampaignsOrderedByQueue db (.ok ())).data =
      some (orderCampaignsByQueue db) ∧
    (orderCampaignsByQueue db).Perm db ∧
    (orderCampaignsByQueue db).Pairwise queueBefore := by
  refine ⟨rfl, List.mergeSort_perm db queueOrderLe, ?_⟩
  have hs := List.sorted_mergeSort
    (fun a b c => queueOrderLe_trans a b c)
    (fun a b => queueOrderLe_total a b) db
  exact hs.imp (fun h => queueOrderLe_before _ _ h)

/-- Folding the whole-table updates equals mapping the per-row fold over the
table. -/
theorem foldl_applyPositionUpdate (now : Int) (us : List (String × Int)) :
    ∀ db : List CommentCampaign,
      us.foldl (applyPositionUpdate now) db =
        db.map (fun c => us.foldl (fun r u => rowPositionUpdate now u r) c) := by
  induction us with
  | nil => intro db; simp
  | cons u rest ih =>
    intro db
    simp only [List.foldl_cons]
    rw [ih]
    simp only [applyPositionUpdate, List.map_map]
    rfl

/-- A row whose id matches no update is untouched by the per-row fold. -/
theorem foldl_rowUpdate_not_mem (now : Int) :
    ∀ (us : List (String × Int)) (c : CommentCampaign),
      c.id ∉ us.map Prod.fst →
      us.foldl (fun r u => rowPositionUpdate now u r) c = c := by
  intro us
  induction us with
  | nil => intro c _; rfl
  | cons u rest ih =>
    intro c h
    simp only [List.map_cons, List.mem_cons, not_or] at h
    simp only [List.foldl_cons]
    rw [show rowPositionUpdate now u c = c from by
      simp [rowPositionUpdate, h.1]]
    exact ih c (by simpa using h.2)

/-- With pairwise-distinct update ids, the per-row fold sets exactly the
position paired with the row's id. -/
theorem foldl_rowUpdate_mem (now : Int) :
    ∀ (us : List (String × Int)) (c : CommentCampaign) (p : Int),
      (us.map Prod.fst).Nodup → (c.id, p) ∈ us →
      us.foldl (fun r u => rowPositionUpdate now u r) c =
        { c with queue_position := some p, updated_at := now } := by
  intro us
  induction us with
  | nil => intro c p _ h; simp at h
  | cons u rest ih =>
    intro c p hnodup hmem
    rw [List.map_cons, List.nodup_cons] at hnodup
    simp only [List.foldl_cons]
    by_cases hid : c.id = u.1
    · rw [show rowPositionUpdate now u c =
          { c with queue_position := some u.2, updated_at := now } from by
        simp [rowPositionUpdate, hid]]
      have hcid : c.id ∉ rest.map Prod.fst := by rw [hid]; exact hnodup.1
      rw [foldl_rowUpdate_not_mem now rest
        { c with queue_position := some u.2, updated_at := now } hcid]
      rcases List.mem_cons.mp hmem with heq | hmem'
      · have hval : u.2 = p := by rw [← heq]
        rw [hval]
      · exact absurd (List.mem_map_of_mem Prod.fst hmem') hcid
    · rw [show rowPositionUpdate now u c = c from by
        simp [rowPositionUpdate, hid]]
      refine ih c p hnodup.2 ?_
      rcases List.mem_cons.mp hmem with heq | hm
      · exact absurd (by rw [← heq]) hid
      · exact hm

/-- With pairwise-distinct keys, a key determines its paired value. -/
theorem nodup_keys_value_eq :
    ∀ (l : List (String × Int)) (a : String) (v w : Int),
      (l.map Prod.fst).Nodup → (a, v) ∈ l → (a, w) ∈ l → v = w := by
  intro l
  induction l with
  | nil => intro a v w _ h; simp at h
  | cons u rest ih =>
    intro a v w hnodup h1 h2
    rw [List.map_cons, List.nodup_cons] at hnodup
    rcases List.mem_cons.mp h1 with e1 | m1 <;>
      rcases List.mem_cons.mp h2 with e2 | m2
    · rw [← e1] at e2
      exact ((Prod.mk.injEq _ _ _ _).mp e2).2.symm
    · have ha : a ∈ rest.map Prod.fst := List.mem_map_of_mem Prod.fst m2
      have hu : u.1 = a := by rw [← e1]
      exact absurd (hu ▸ ha) (hu ▸ hnodup.1)
    · have ha : a ∈ rest.map Prod.fst := List.mem_map_of_mem Prod.fst m1
      have hu : u.1 = a := by rw [← e2]
      exact absurd (hu ▸ ha) (hu ▸ hnodup.1)
    · exact ih a v w hnodup.2 m1 m2

/-- The update list built by `handleReorder` pairs the id of the element at
index `i` of the new order with position `i + 1`. -/
theorem enum_update_mem (reordered : List CommentCampaign) (i : Nat)
    (hi : i < reordered.length) :
    (reordered[i].id, (i : Int) + 1) ∈
      reordered.enum.map (fun p => (p.2.id, (p.1 : Int) + 1)) := by
  refine List.mem_map.mpr ⟨(i, reordered[i]), ?_, rfl⟩
  have h := List.getElem_enum reordered i (by simpa using hi)
  rw [← h]
  exact List.getElem_mem _

/-- The keys of the update list are the ids of the new order. -/
theorem enum_update_keys (reordered : List CommentCampaign) :
    (reordered.enum.map (fun p => (p.2.id, (p.1 : Int) + 1))).map Prod.fst =
      reordered.map (fun c => c.id) := by
  rw [List.map_map]
  have hcomp : (Prod.fst ∘ fun p : Nat × CommentCampaign =>
      (p.2.id, (p.1 : Int) + 1)) =
      ((fun c : CommentCampaign => c.id) ∘ Prod.snd) := rfl
  rw [hcomp, ← List.map_map, List.enum_map_snd]

/-- The first update that fails, in update order, carries the id of the
first element of the new order whose persistence fails. -/
theorem filter_enumFrom_find (fails : String → Bool) :
    ∀ (l : List CommentCampaign) (n : Nat) (c0 : CommentCampaign),
      l.find? (fun c => fails c.id) = some c0 →
      ∃ v : Int,
        (((l.enumFrom n).map (fun p => (p.2.id, (p.1 : Int) + 1))).filter
          (fun u => fails u.1)).head? = some (c0.id, v) := by
  intro l
  induction l with
  | nil => intro n c0 h; simp [List.find?] at h
  | cons c rest ih =>
    intro n c0 h
    by_cases hc : fails c.id
    · have hc0 : c = c0 := by
        simp [List.find?_cons, hc] at h
        exact h
      subst hc0
      refine ⟨(n : Int) + 1, ?_⟩
      simp [List.enumFrom, List.filter_cons, hc]
    · have h' : rest.find? (fun c => fails c.id) = some c0 := by
        simpa [List.find?_cons, hc] using h
      obtain ⟨v, hv⟩ := ih (n + 1) c0 h'
      refine ⟨v, ?_⟩
      simpa [List.enumFrom, List.filter_cons, hc] using hv

/-- C2: for a full reorder (the new order is a permutation of the table with
distinct ids), when every per-item update succeeds the persisted positions
are exactly 1..N — the campaign at index i of the new order receives
position i + 1, and the multiset of stored positions is exactly
{1, ..., N} — while on failure of any per-item update the first error in
update order is reported and the handler refetches the authoritative
ordering. -/
theorem reorder_assigns_contiguous_positions (now : Int)
    (fails : String → Bool) (db reordered : List CommentCampaign)
    (hids : (reordered.map (fun c => c.id)).Nodup)
    (hperm : db.Perm reordered) :
    ((∀ s, fails s = false) →
      ((handleReorder now fails db reordered).db.map
          (fun c => c.queue_position)).Perm
        ((List.range reordered.length).map
          (fun i : Nat => some ((i : Int) + 1))) ∧
      (∀ (i : Nat) (hi : i < reordered.length) (c : CommentCampaign),
        c ∈ (handleReorder now fails db reordered).db →
        c.id = reordered[i].id →
        c.queue_position = some ((i : Int) + 1))) ∧
    (∀ c0 : CommentCampaign,
      reordered.find? (fun c => fails c.id) = some c0 →
      (handleReorder now fails db reordered).reportedError = some c0.id ∧
      (handleReorder now fails db reordered).refetched = true ∧
      (handleReorder now fails db reordered).localCampaigns =
        orderCampaignsByQueue (handleReorder now fails db reordered).db) := by
  have hkeys : ((reordered.enum.map
      (fun p => (p.2.id, (p.1 : Int) + 1))).map Prod.fst).Nodup := by
    rw [enum_update_keys]; exact hids
  constructor
  · intro hok
    have hfilter_ok : (reordered.enum.map
        (fun p => (p.2.id, (p.1 : Int) + 1))).filter (fun u => !fails u.1) =
        reordered.enum.map (fun p => (p.2.id, (p.1 : Int) + 1)) :=
      List.filter_eq_self.mpr (fun u _ => by simp [hok])
    have herrs : (reordered.enum.map
        (fun p => (p.2.id, (p.1 : Int) + 1))).filter (fun u => fails u.1) =
        [] :=
      List.filter_eq_nil_iff.mpr (fun u _ => by simp [hok])
    have hupd : updateQueuePositions now fails db
        (reordered.enum.map (fun p => (p.2.id, (p.1 : Int) + 1))) =
        ⟨(reordered.enum.map (fun p => (p.2.id, (p.1 : Int) + 1))).foldl
          (applyPositionUpdate now) db, true, none⟩ := by
      unfold updateQueuePositions
      rw [hfilter_ok, herrs]
      rfl
    have hres : handleReorder now fails db reordered =
        ⟨(reordered.enum.map (fun p => (p.2.id, (p.1 : Int) + 1))).foldl
          (applyPositionUpdate now) db, reordered, none, false⟩ := by
      simp [handleReorder, hupd]
    constructor
    · rw [hres]
      show (((reordered.enum.map (fun p => (p.2.id, (p.1 : Int) + 1))).foldl
        (applyPositionUpdate now) db).map (fun c => c.queue_position)).Perm _
      rw [foldl_applyPositionUpdate, List.map_map]
      refine (hperm.map _).trans ?_
      have hmapeq : reordered.map ((fun c => c.queue_position) ∘
          (fun c => (reordered.enum.map
            (fun p => (p.2.id, (p.1 : Int) + 1))).foldl
              (fun r u => rowPositionUpdate now u r) c)) =
          (List.range reordered.length).map
            (fun i : Nat => some ((i : Int) + 1)) := by
        apply List.ext_getElem
          (by rw [List.length_map, List.length_map, List.length_range])
        intro i h1 h2
        simp only [List.getElem_map, Function.comp_apply, List.getElem_range]
        have hi : i < reordered.length := by simpa using h1
        rw [foldl_rowUpdate_mem now _ _ ((i : Int) + 1) hkeys
          (enum_update_mem reordered i hi)]
      rw [hmapeq]
    · intro i hi c hc hcid
      rw [hres] at hc
      simp only at hc
      rw [foldl_applyPositionUpdate] at hc
      obtain ⟨c0, hc0mem, hc0eq⟩ := List.mem_map.mp hc
      obtain ⟨i0, hi0, hgot⟩ := List.mem_iff_getElem.mp (hperm.subset hc0mem)
      have hmem0 : (c0.id, (i0 : Int) + 1) ∈
          reordered.enum.map (fun p => (p.2.id, (p.1 : Int) + 1)) := by
        rw [show c0.id = reordered[i0].id from by rw [hgot]]
        exact enum_update_mem reordered i0 hi0
      have hF : (reordered.enum.map
          (fun p => (p.2.id, (p.1 : Int) + 1))).foldl
            (fun r u => rowPositionUpdate now u r) c0 =
          { c0 with queue_position := some ((i0 : Int) + 1), updated_at := now } :=
        foldl_rowUpdate_mem now _ _ _ hkeys hmem0
      have hcid0 : c0.id = reordered[i].id := by
        rw [← hcid, ← hc0eq, hF]
      have hmemi : (c0.id, (i : Int) + 1) ∈
          reordered.enum.map (fun p => (p.2.id, (p.1 : Int) + 1)) := by
        rw [hcid0]
        exact enum_update_mem reordered i hi
      have hval : (i0 : Int) + 1 = (i : Int) + 1 :=
        nodup_keys_value_eq _ _ _ _ hkeys hmem0 hmemi
      rw [← hc0eq, hF]
      simp [hval]
  · intro c0 hfind
    obtain ⟨v, hv⟩ := filter_enumFrom_find fails reordered 0 c0 hfind
    have hv' : ((reordered.enum.map
        (fun p => (p.2.id, (p.1 : Int) + 1))).filter
          (fun u => fails u.1)).head? = some (c0.id, v) := hv
    have hupd : updateQueuePositions now fails db
        (reordered.enum.map (fun p => (p.2.id, (p.1 : Int) + 1))) =
        ⟨((reordered.enum.map
            (fun p => (p.2.id, (p.1 : Int) + 1))).filter
              (fun u => !fails u.1)).foldl (applyPositionUpdate now) db,
          false, some c0.id⟩ := by
      unfold updateQueuePositions
      rw [hv']
    have hres : handleReorder now fails db reordered =
        ⟨((reordered.enum.map
            (fun p => (p.2.id, (p.1 : Int) + 1))).filter
              (fun u => !fails u.1)).foldl (applyPositionUpdate now) db,
          orderCampaignsByQueue (((reordered.enum.map
            (fun p => (p.2.id, (p.1 : Int) + 1))).filter
              (fun u => !fails u.1)).foldl (applyPositionUpdate now) db),
          some c0.id, true⟩ := by
      simp [handleReorder, hupd]
    rw [hres]
    exact ⟨rfl, rfl, rfl⟩

/-- Witness for `reorder_assigns_contiguous_positions`: swapping two
concrete campaigns with no failing update yields positions that are a
permutation of {1, 2}. -/
theorem reorder_assigns_contiguous_positions_witness :
    ((handleReorder 0 (fun _ => false) [campaignA, campaignB]
        [campaignB, campaignA]).db.map (fun c => c.queue_position)).Perm
      ((List.range ([campaignB, campaignA] :
          List CommentCampaign).length).map
        (fun i : Nat => some ((i : Int) + 1))) :=
  ((reorder_assigns_contiguous_positions 0 (fun _ => false)
      [campaignA, campaignB] [campaignB, campaignA] (by decide)
      (List.Perm.swap campaignB campaignA [])).1 (fun s => rfl)).1
